import Mathlib

/-!
Shallow embedding of the macro_econ_db query-understanding and analytics
pipeline (backend/app/services/nlp/query_parser.py,
backend/app/services/analytics/analyzer.py,
backend/app/services/analytics/reqort_generator.py), together with theorems
settling the specification claims about it.

Modelling conventions: Python strings are lists of characters; floats are
exact rationals, with the two code sites that can produce IEEE infinities
modelled by an explicit extended-rational type; datetimes are
year/month/day triples compared lexicographically, with day distances
computed through the proleptic-Gregorian ordinal, as `datetime`/pandas do.
The clock (`datetime.now()`) is passed in explicitly as the current year
resp. an iso-format timestamp string.
-/

/-- A Python string, modelled as its list of characters. -/
abbrev PyStr := List Char

/-- `str.lower` restricted to ASCII case mapping; the catalog synonyms and
comparison/trend lexicons contain only ASCII letters and uncased CJK
characters, for which this agrees with Python. -/
def lowerStr (s : PyStr) : PyStr := s.map Char.toLower

/-- Python regex word character (`\w`) on the character classes occurring in
the catalog and in queries: ASCII alphanumerics, underscore, and CJK unified
ideographs (which are word characters in Python's Unicode regex mode). -/
def isWordChar (c : Char) : Bool :=
  decide ((97 ≤ c.toNat ∧ c.toNat ≤ 122) ∨ (65 ≤ c.toNat ∧ c.toNat ≤ 90) ∨
    (48 ≤ c.toNat ∧ c.toNat ≤ 57) ∨ c.toNat = 95 ∨
    (19968 ≤ c.toNat ∧ c.toNat ≤ 40959))

/-- `startsWithStr n h`: `n` is an initial segment of `h`. -/
def startsWithStr : PyStr → PyStr → Bool
  | [], _ => true
  | _ :: _, [] => false
  | a :: n, b :: h => a == b && startsWithStr n h

/-- Python's `needle in hay` contiguous-substring test. -/
def containsSub (needle : PyStr) : PyStr → Bool
  | [] => startsWithStr needle []
  | c :: t => startsWithStr needle (c :: t) || containsSub needle t

/-- The country synonym table of `QueryParser.__init__`, in dict insertion
order (synonym, canonical code). -/
def country_map : List (String × String) :=
  [("中国", "CHN"), ("china", "CHN"), ("中华人民共和国", "CHN"),
   ("美国", "USA"), ("united states", "USA"), ("america", "USA"), ("us", "USA"),
   ("印度", "IND"), ("india", "IND"),
   ("日本", "JPN"), ("japan", "JPN"),
   ("德国", "DEU"), ("germany", "DEU"),
   ("法国", "FRA"), ("france", "FRA"),
   ("英国", "GBR"), ("uk", "GBR"), ("united kingdom", "GBR"),
   ("加拿大", "CAN"), ("canada", "CAN"),
   ("澳大利亚", "AUS"), ("australia", "AUS"),
   ("新加坡", "SGP"), ("singapore", "SGP")]

/-- The indicator synonym table of `QueryParser.__init__`, in dict insertion
order. -/
def indicator_map : List (String × String) :=
  [("gdp", "NY.GDP.MKTP.CD"),
   ("人均gdp", "NY.GDP.PCAP.CD"),
   ("人均国内生产总值", "NY.GDP.PCAP.CD"),
   ("人均国民生产总值", "NY.GDP.PCAP.CD"),
   ("通胀率", "FP.CPI.TOTL.ZG"), ("cpi", "FP.CPI.TOTL.ZG"),
   ("消费者物价指数", "FP.CPI.TOTL.ZG"),
   ("失业率", "SL.UEM.TOTL.ZS"), ("unemployment", "SL.UEM.TOTL.ZS"),
   ("出口", "NE.EXP.GNFS.ZS"), ("exports", "NE.EXP.GNFS.ZS"),
   ("基准利率", "FR.INR.RINR"), ("interest rate", "FR.INR.RINR"),
   ("人口", "SP.POP.TOTL"), ("population", "SP.POP.TOTL"),
   ("负债率", "GC.DOD.TOTL.GD.ZS"), ("debt to gdp", "GC.DOD.TOTL.GD.ZS")]

/-- `QueryParser.extract_countries`, lexical path: for each synonym in table
order, append the canonical code once when the lowered synonym occurs in the
lowered query.  The NER fallback is guarded by `self.ner_pipeline` being
loaded and only fires when this lexical scan returns nothing; no claim
touches an input on which it fires, so it is not modelled. -/
def extract_countries (query : PyStr) : List String :=
  country_map.foldl
    (fun acc p =>
      if containsSub (lowerStr p.1.toList) (lowerStr query) && !(acc.contains p.2)
      then acc ++ [p.2] else acc) []

/-- `QueryParser.extract_indicators`: same lexical scan over the indicator
table (no recognizer fallback). -/
def extract_indicators (query : PyStr) : List String :=
  indicator_map.foldl
    (fun acc p =>
      if containsSub (lowerStr p.1.toList) (lowerStr query) && !(acc.contains p.2)
      then acc ++ [p.2] else acc) []

/-- `int` of the capture group of `(19|20)\d{2}`: `re.findall` with one group
returns the group text, so a matched token contributes `19` or `20`, never
the full four-digit year. -/
def yearDigitVal (c : Char) : ℕ := if c = '1' then 19 else 20

/-- Does the regex `\b(19|20)\d{2}\b` match starting at the character `c`
followed by `t`, given that the preceding character's word-ness is `prev`?
`c` is necessarily a digit (word character), so the leading `\b` holds iff
the previous character is not a word character; the trailing `\b` holds iff
the fourth digit is followed by a non-word character or the end. -/
def yearStartsAt (prev : Bool) (c : Char) (t : PyStr) : Bool :=
  match t with
  | c2 :: c3 :: c4 :: rest =>
      !prev &&
      ((c == '1' && c2 == '9') || (c == '2' && c2 == '0')) &&
      c3.isDigit && c4.isDigit &&
      (match rest with
       | [] => true
       | n :: _ => !(isWordChar n))
  | _ => false

/-- Left-to-right non-overlapping scan of `re.findall(r"\b(19|20)\d{2}\b", q)`:
on a match, emit the group value and resume after the four matched
characters (the skip counter consumes them while tracking word-ness). -/
def goYears : ℕ → Bool → PyStr → List ℕ
  | _, _, [] => []
  | 0, prev, c :: t =>
      if yearStartsAt prev c t then yearDigitVal c :: goYears 3 (isWordChar c) t
      else goYears 0 (isWordChar c) t
  | s + 1, _, c :: t => goYears s (isWordChar c) t

/-- The year-token list of `QueryParser.extract_time_period` lines 127-129. -/
def findYears (query : PyStr) : List ℕ := goYears 0 false query

/-- A `datetime` at day granularity. -/
structure Date where
  year : ℕ
  month : ℕ
  day : ℕ
deriving DecidableEq, Repr

/-- `datetime` comparison: lexicographic on (year, month, day). -/
def dateLeb (a b : Date) : Bool :=
  decide (a.year < b.year ∨ (a.year = b.year ∧
    (a.month < b.month ∨ (a.month = b.month ∧ a.day ≤ b.day))))

/-- Stable insertion into a list ordered by the boolean relation `le`
(`le x h = true` places `x` before `h`, so ties keep original order). -/
def insertOrd {α : Type} (le : α → α → Bool) (x : α) : List α → List α
  | [] => [x]
  | h :: t => if le x h then x :: h :: t else h :: insertOrd le x t

/-- Stable insertion sort by the boolean relation `le`. -/
def insSortOrd {α : Type} (le : α → α → Bool) : List α → List α
  | [] => []
  | h :: t => insertOrd le h (insSortOrd le t)

/-- The "since/onwards" cue of `extract_time_period` line 140. -/
def sinceCue (query : PyStr) : Bool :=
  containsSub ("以来".toList) query || containsSub ("since".toList) (lowerStr query)

/-- `QueryParser.extract_time_period`: one year found → since-cue decides
between [year, current_year] and the single-year snapshot; two or more →
[min, max] via `years.sort()`; none → relative-phrase cues, else the default
ten-year window.  All branches set both endpoints, so the final
default-if-unset step collapses into the zero-years branch. -/
def extract_time_period (query : PyStr) (currentYear : ℕ) : Date × Date :=
  match findYears query with
  | [y] =>
      if sinceCue query then (⟨y, 1, 1⟩, ⟨currentYear, 12, 31⟩)
      else (⟨y, 1, 1⟩, ⟨y, 12, 31⟩)
  | [] =>
      if containsSub ("过去十年".toList) query ||
         containsSub ("last decade".toList) (lowerStr query) then
        (⟨currentYear - 10, 1, 1⟩, ⟨currentYear, 12, 31⟩)
      else if containsSub ("过去五年".toList) query ||
         containsSub ("last five years".toList) (lowerStr query) ||
         containsSub ("past 5 years".toList) (lowerStr query) then
        (⟨currentYear - 5, 1, 1⟩, ⟨currentYear, 12, 31⟩)
      else if containsSub ("去年".toList) query ||
         containsSub ("last year".toList) (lowerStr query) then
        (⟨currentYear - 1, 1, 1⟩, ⟨currentYear - 1, 12, 31⟩)
      else (⟨currentYear - 10, 1, 1⟩, ⟨currentYear, 12, 31⟩)
  | years =>
      let sorted := insSortOrd (fun a b => Nat.ble a b) years
      (⟨sorted.headD 0, 1, 1⟩, ⟨sorted.getLastD 0, 12, 31⟩)

/-- The comparison lexicon of `QueryParser.detect_comparison`. -/
def comparison_terms : List String :=
  ["比较", "compare", "对比", "versus", "vs", "相比", "compared to",
   "comparison", "与", "和", "及", "比"]

/-- `QueryParser.detect_comparison`: true iff some lexicon term occurs in the
lowered query. -/
def detect_comparison (query : PyStr) : Bool :=
  comparison_terms.any (fun t => containsSub (t.toList) (lowerStr query))

/-- The trend lexicon of `QueryParser.detect_trend_analysis`. -/
def trend_terms : List String :=
  ["趋势", "trend", "变化", "change", "增长", "growth", "演变", "evolution",
   "发展", "development", "历史", "history"]

/-- `QueryParser.detect_trend_analysis`. -/
def detect_trend_analysis (query : PyStr) : Bool :=
  trend_terms.any (fun t => containsSub (t.toList) (lowerStr query))

/-- `QueryParser.detect_visualization_type`: Chinese keywords are matched on
the raw query, English ones on the lowered query, in the source's priority
order; no match falls back to "line". -/
def detect_visualization_type (query : PyStr) : String :=
  if containsSub ("柱状图".toList) query ||
     containsSub ("bar chart".toList) (lowerStr query) ||
     containsSub ("柱图".toList) query then "bar"
  else if containsSub ("饼图".toList) query ||
     containsSub ("pie chart".toList) (lowerStr query) then "pie"
  else if containsSub ("散点图".toList) query ||
     containsSub ("scatter".toList) (lowerStr query) then "scatter"
  else if containsSub ("热力图".toList) query ||
     containsSub ("heat map".toList) (lowerStr query) then "heatmap"
  else "line"

/-- The structured query returned by `QueryParser.parse_query`. -/
structure QueryParams where
  countries : List String
  indicators : List String
  start_date : Option Date
  end_date : Option Date
  is_comparison : Bool
  is_trend : Bool
  visualization_type : String
  original_query : PyStr
deriving DecidableEq, Repr

/-- `QueryParser.parse_query`.  The `except` fallback (default query with the
failure reason recorded) is unreachable: every operation in the `try` body is
total — the NER recognizer swallows its own errors, the regex and lexicon
scans cannot raise, and `datetime(y, 1, 1)` succeeds for every year the
(buggy) token scan can produce — so the embedding is the `try` branch. -/
def parse_query (query : PyStr) (currentYear : ℕ) : QueryParams :=
  let countries := extract_countries query
  let indicators := extract_indicators query
  let se := extract_time_period query currentYear
  { countries := if countries.isEmpty then ["CHN", "USA"] else countries
    indicators := if indicators.isEmpty then ["NY.GDP.MKTP.CD"] else indicators
    start_date := some se.1
    end_date := some se.2
    is_comparison := detect_comparison query
    is_trend := detect_trend_analysis query
    visualization_type := detect_visualization_type query
    original_query := query }

/-! ## Series analyzer (backend/app/services/analytics/analyzer.py) -/

/-- One element of a series' `data` list (`{"date": ..., "value": ...}`). -/
structure DataPoint where
  date : Date
  value : ℚ
deriving DecidableEq, Repr

/-- One series dict as built by `QueryProcessor._fetch_data`. -/
structure SeriesData where
  country : String
  country_code : String
  indicator : String
  indicator_code : String
  unit : String
  data : List DataPoint
deriving DecidableEq, Repr

/-- One row of the DataFrame built by `DataAnalyzer._convert_to_dataframe`. -/
structure Row where
  country : String
  country_code : String
  indicator : String
  indicator_code : String
  unit : String
  date : Date
  value : ℚ
deriving DecidableEq, Repr

/-- `DataAnalyzer._convert_to_dataframe`: one row per data point, carrying the
series metadata. -/
def toRows (data : List SeriesData) : List Row :=
  (data.map (fun s => s.data.map (fun p =>
    { country := s.country, country_code := s.country_code,
      indicator := s.indicator, indicator_code := s.indicator_code,
      unit := s.unit, date := p.date, value := p.value }))).flatten

/-- First-occurrence deduplication: the order and cardinality of pandas
`Series.unique()` and the cardinality of `set(...)`. -/
def dedupKeep {α : Type} [DecidableEq α] (l : List α) : List α :=
  l.foldl (fun acc a => if acc.contains a then acc else acc ++ [a]) []

/-- Placeholder row for total list accesses on groups known to be nonempty. -/
def dummyRow : Row :=
  { country := "", country_code := "", indicator := "", indicator_code := "",
    unit := "", date := ⟨1, 1, 1⟩, value := 0 }

/-- `sort_values("date")`.  pandas' default quicksort leaves the order of
equal dates unspecified; the model fixes the stable order (no claim input has
duplicate dates within a group). -/
def sortRowsByDate (rows : List Row) : List Row :=
  insSortOrd (fun a b => dateLeb a.date b.date) rows

def sumQ (l : List ℚ) : ℚ := l.foldr (· + ·) 0

def meanQ (l : List ℚ) : ℚ := sumQ l / (l.length : ℚ)

def minQD : List ℚ → ℚ
  | [] => 0
  | v :: t => t.foldr min v

def maxQD : List ℚ → ℚ
  | [] => 0
  | v :: t => t.foldr max v

/-- pandas median: middle element of the sorted values, or the average of the
two middle elements for an even count. -/
def medianQ (l : List ℚ) : ℚ :=
  let s := insSortOrd (fun a b : ℚ => decide (a ≤ b)) l
  let n := l.length
  if n % 2 = 1 then s.getD (n / 2) 0
  else (s.getD (n / 2 - 1) 0 + s.getD (n / 2) 0) / 2

/-- Square of the pandas sample standard deviation (`std`, ddof = 1); `none`
models the NaN produced for a single-element group.  The source stores the
square root, which is irrational in general; no claim reads this field. -/
def sampleVarQ (vals : List ℚ) : Option ℚ :=
  if vals.length ≤ 1 then none
  else some (sumQ (vals.map (fun v => (v - meanQ vals) ^ 2)) / ((vals.length : ℚ) - 1))

def isLeapYear (y : ℕ) : Bool := (y % 4 == 0 && y % 100 != 0) || y % 400 == 0

/-- Days strictly before month `m` in a year (Gregorian). -/
def daysBeforeMonth (m : ℕ) (leap : Bool) : ℕ :=
  (match m with
   | 1 => 0 | 2 => 31 | 3 => 59 | 4 => 90 | 5 => 120 | 6 => 151
   | 7 => 181 | 8 => 212 | 9 => 243 | 10 => 273 | 11 => 304 | 12 => 334
   | _ => 0)
  + (if leap && decide (3 ≤ m) then 1 else 0)

/-- Proleptic Gregorian ordinal (`datetime.toordinal`). -/
def Date.ordinal (d : Date) : ℤ :=
  365 * ((d.year : ℤ) - 1) + (((d.year - 1) / 4 : ℕ) : ℤ)
    - (((d.year - 1) / 100 : ℕ) : ℤ) + (((d.year - 1) / 400 : ℕ) : ℤ)
    + (daysBeforeMonth d.month (isLeapYear d.year) : ℤ) + (d.day : ℤ)

/-- `(b - a).days` for pandas timestamps at day granularity. -/
def daysBetween (a b : Date) : ℤ := b.ordinal - a.ordinal

/-- `indicator.lower().find("gdp") >= 0`. -/
def hasGdpMarker (indicator : String) : Bool :=
  containsSub ("gdp".toList) (lowerStr indicator.toList)

/-- `group_sorted.iloc[0]` (first row of the date-sorted group; groups are
nonempty). -/
def firstRowD (rows : List Row) : Row := (sortRowsByDate rows).headD dummyRow

/-- `group_sorted.iloc[-1]` (last row of the date-sorted group). -/
def lastRowD (rows : List Row) : Row := (sortRowsByDate rows).getLastD dummyRow

/-- `group_sorted.iloc[-2]` (second-to-last row of the date-sorted group). -/
def prevRowD (rows : List Row) : Row := (sortRowsByDate rows).reverse.getD 1 dummyRow

/-- The per-group statistics record of `DataAnalyzer._calculate_statistics`.
`minv`/`maxv` are the source's `min`/`max` keys. -/
structure StatRecord where
  country : String
  indicator : String
  mean : ℚ
  median : ℚ
  minv : ℚ
  maxv : ℚ
  stdSq : Option ℚ
  count : ℕ
  unit : String
  cagr : Option ℝ
  recent_change_pct : Option ℚ

/-- `(last/first) ** (1/years) - 1`, as a percentage; the only real-valued
(transcendental) quantity the analyzer computes. -/
noncomputable def cagrVal (firstV lastV : ℚ) (yrs : ℚ) : ℝ :=
  (Real.rpow ((lastV : ℝ) / (firstV : ℝ)) (1 / (yrs : ℝ)) - 1) * 100

/-- Fractional years between two dates, 365.25-day year. -/
def yearsBetween (a b : Date) : ℚ := (daysBetween a b : ℚ) * 4 / 1461

/-- `DataAnalyzer._calculate_statistics`, body of the per-group loop.  CAGR
needs `len(group) > 1`, the GDP marker, positive span and positive first
value; the recent percent change uses the last two date-sorted points and is
omitted on a zero denominator. -/
noncomputable def calc_stats_group (country indicator : String) (rows : List Row) : StatRecord :=
  let vals := rows.map (·.value)
  let base : StatRecord :=
    { country := country, indicator := indicator,
      mean := meanQ vals, median := medianQ vals,
      minv := minQD vals, maxv := maxQD vals,
      stdSq := sampleVarQ vals, count := rows.length,
      unit := (rows.headD dummyRow).unit,
      cagr := none, recent_change_pct := none }
  if 1 < rows.length then
    let f := firstRowD rows
    let lastR := lastRowD rows
    let prevR := prevRowD rows
    let yrs := yearsBetween f.date lastR.date
    let withCagr :=
      if hasGdpMarker indicator ∧ 0 < yrs ∧ 0 < f.value then
        { base with cagr := some (cagrVal f.value lastR.value yrs) }
      else base
    if prevR.value = 0 then withCagr
    else { withCagr with
           recent_change_pct := some ((lastR.value - prevR.value) / prevR.value * 100) }
  else base

/-- Lexicographic comparison of strings by code point (Python `<` on str). -/
def charsLeb : List Char → List Char → Bool
  | [], _ => true
  | _ :: _, [] => false
  | a :: s, b :: t => if a = b then charsLeb s t else decide (a < b)

/-- Group-key order of `df.groupby(["country", "indicator"])` (sorted keys). -/
def keyLeb (a b : String × String) : Bool :=
  if a.1 = b.1 then charsLeb a.2.toList b.2.toList
  else charsLeb a.1.toList b.1.toList

def group_keys (rows : List Row) : List (String × String) :=
  insSortOrd keyLeb (dedupKeep (rows.map (fun r => (r.country, r.indicator))))

def rows_of_group (rows : List Row) (k : String × String) : List Row :=
  rows.filter (fun r => r.country == k.1 && r.indicator == k.2)

/-- `DataAnalyzer._calculate_statistics`: one record per (country, indicator)
group, in sorted key order (the `f"{country}_{indicator}"` dict keys are not
separately modelled). -/
noncomputable def calc_statistics (rows : List Row) : List StatRecord :=
  (group_keys rows).map (fun k => calc_stats_group k.1 k.2 (rows_of_group rows k))

/-- The per-group trend record of `DataAnalyzer._analyze_trends`.  The source
adds the `inflection_points` key only when the list is nonempty; the empty
list models the absent key. -/
structure TrendRecord where
  country : String
  indicator : String
  overall_trend : String
  trend_strength : ℚ
  recent_trend : String
  slope : ℚ
  inflection_points : List Date
deriving DecidableEq, Repr

/-- Running sums (Σx, Σy, Σxy, Σx²) over values `v` paired with 0-based
indices starting at `i`. -/
def olsSums : ℕ → List ℚ → ℚ × ℚ × ℚ × ℚ
  | _, [] => (0, 0, 0, 0)
  | i, v :: t =>
      let r := olsSums (i + 1) t
      ((i : ℚ) + r.1, v + r.2.1, (i : ℚ) * v + r.2.2.1, (i : ℚ) * (i : ℚ) + r.2.2.2)

/-- Ordinary-least-squares slope of `np.polyfit(x, y, 1)` with `x = 0..n-1`. -/
def slopeOf (y : List ℚ) : ℚ :=
  let n : ℚ := y.length
  let s := olsSums 0 y
  (n * s.2.2.1 - s.1 * s.2.1) / (n * s.2.2.2 - s.1 * s.1)

/-- Matching OLS intercept. -/
def interceptOf (y : List ℚ) : ℚ :=
  let s := olsSums 0 y
  (s.2.1 - slopeOf y * s.1) / (y.length : ℚ)

/-- Residual sum of squares against the fitted line, indices from `i`. -/
def ssResFrom (slope intercept : ℚ) : ℕ → List ℚ → ℚ
  | _, [] => 0
  | i, v :: t => (v - (slope * (i : ℚ) + intercept)) ^ 2 + ssResFrom slope intercept (i + 1) t

/-- Total sum of squares `np.sum((y - np.mean(y)) ** 2)`. -/
def ssTotOf (y : List ℚ) : ℚ := sumQ (y.map (fun v => (v - meanQ y) ^ 2))

/-- `r_squared = 1 - (ss_res / ss_tot) if ss_tot != 0 else 0`: the
zero-total-sum-of-squares guard returns the sentinel 0 instead of dividing
by zero. -/
def rsqOf (y : List ℚ) : ℚ :=
  let ss_tot := ssTotOf y
  if ss_tot ≠ 0 then 1 - ssResFrom (slopeOf y) (interceptOf y) 0 y / ss_tot else 0

/-- `np.diff`: consecutive differences. -/
def diffsOf : List ℚ → List ℚ
  | a :: b :: t => (b - a) :: diffsOf (b :: t)
  | _ => []

/-- Indices (from `i`) where adjacent booleans differ:
`np.where(np.diff(np.signbit(diffs)))[0]`. -/
def signChangeIdxs : ℕ → List Bool → List ℕ
  | i, a :: b :: t => (if a ≠ b then [i] else []) ++ signChangeIdxs (i + 1) (b :: t)
  | _, _ => []

/-- `DataAnalyzer._analyze_trends`, body of the per-group loop: requires ≥3
points, fits an OLS line over a 0-based index, direction from the exact
slope sign, R² with the zero-total-sum-of-squares guard, trailing-6 recent
trend when ≥6 points, and sign-change inflection dates (the point after each
change).  The `np.isnan` guard cannot fire over exact rationals. -/
def analyze_trend_group (country indicator : String) (rows : List Row) : Option TrendRecord :=
  let sorted := sortRowsByDate rows
  if 3 ≤ sorted.length then
    let y := sorted.map (·.value)
    let slope := slopeOf y
    let dir := if 0 < slope then "上升" else if slope < 0 then "下降" else "稳定"
    let r2 := rsqOf y
    let recent :=
      if 6 ≤ sorted.length then
        let rs := slopeOf ((sorted.drop (sorted.length - 6)).map (·.value))
        if 0 < rs then "上升" else if rs < 0 then "下降" else "稳定"
      else "数据不足"
    let idxs := signChangeIdxs 0 ((diffsOf y).map (fun d => decide (d < 0)))
    some { country := country, indicator := indicator, overall_trend := dir,
           trend_strength := r2, recent_trend := recent, slope := slope,
           inflection_points := idxs.map (fun idx => (sorted.getD (idx + 1) dummyRow).date) }
  else none

/-- `DataAnalyzer._analyze_trends` over the sorted (country, indicator)
groups. -/
def analyze_trends (rows : List Row) : List TrendRecord :=
  (group_keys rows).filterMap (fun k => analyze_trend_group k.1 k.2 (rows_of_group rows k))

/-- A Python float restricted to the values the comparison paths can build:
finite rationals and the two signed infinities. -/
inductive PyFloat where
  | fin (q : ℚ)
  | inf
  | ninf
deriving DecidableEq, Repr

/-- `a >= b` on such floats (for the descending stable sort). -/
def PyFloat.geb : PyFloat → PyFloat → Bool
  | inf, _ => true
  | _, inf => false
  | _, ninf => true
  | ninf, _ => false
  | fin a, fin b => decide (b ≤ a)

/-- `x > 0` on such floats. -/
def PyFloat.posb : PyFloat → Bool
  | fin q => decide (0 < q)
  | inf => true
  | ninf => false

/-- `abs` on such floats. -/
def PyFloat.absPF : PyFloat → PyFloat
  | fin q => fin |q|
  | inf => inf
  | ninf => inf

/-- One entry of the cross-country `rankings` list. -/
structure RankEntry where
  country : String
  value : ℚ
  date : Date
  rank : ℕ
  difference_from_top : ℚ
deriving DecidableEq, Repr

/-- One entry of the cross-indicator `indicator_changes` list. -/
structure ChangeEntry where
  indicator : String
  first_value : ℚ
  last_value : ℚ
  change_pct : PyFloat
deriving DecidableEq, Repr

/-- The tagged comparison dict of `DataAnalyzer._compare_entities`; `empty`
is the falsy `{}`. -/
inductive Comparison where
  | empty
  | crossCountry (indicator : String) (rankings : List RankEntry)
  | crossIndicator (country : String) (indicator_changes : List ChangeEntry)
deriving DecidableEq, Repr

/-- A country's latest observation (pre-ranking). -/
structure LatestEntry where
  country : String
  value : ℚ
  date : Date
deriving DecidableEq, Repr

/-- Sort by date and take the last row (`sort_values("date")`, `iloc[-1]`),
`none` for an empty selection. -/
def latestOf (rows : List Row) : Option LatestEntry :=
  match sortRowsByDate rows with
  | [] => none
  | f :: t =>
      let l := (f :: t).getLastD f
      some { country := l.country, value := l.value, date := l.date }

/-- Ranks `i+1, i+2, ...` and percent difference from the top value (0 for
every entry when the top value is 0). -/
def withRanksFrom (top : ℚ) : ℕ → List LatestEntry → List RankEntry
  | _, [] => []
  | i, e :: t =>
      { country := e.country, value := e.value, date := e.date, rank := i + 1,
        difference_from_top := if top ≠ 0 then (e.value - top) / top * 100 else 0 }
        :: withRanksFrom top (i + 1) t

/-- Rank assignment and difference-from-top over the already-sorted latest
values (`top_value = latest_values[0]["value"]`). -/
def rankAndDiff (sorted : List LatestEntry) : List RankEntry :=
  match sorted with
  | [] => []
  | topE :: _ => withRanksFrom topE.value 0 sorted

/-- `DataAnalyzer._compare_entities`: cross-country when >1 country and
exactly 1 indicator (latest values, stable descending sort, ranks, percent
difference from top); cross-indicator when >1 indicator and exactly 1
country (first-to-last percent change per indicator, ±∞ on a zero first
value, sorted descending by change); otherwise the empty dict. -/
def compare_entities (rows : List Row) : Comparison :=
  let uc := dedupKeep (rows.map (·.country))
  let ui := dedupKeep (rows.map (·.indicator))
  if 1 < uc.length ∧ ui.length = 1 then
    let indicator := ui.headD ""
    let latest := uc.filterMap (fun c =>
      latestOf (rows.filter (fun r => r.country == c && r.indicator == indicator)))
    let sorted := insSortOrd (fun a b : LatestEntry => decide (b.value ≤ a.value)) latest
    Comparison.crossCountry indicator (rankAndDiff sorted)
  else if 1 < ui.length ∧ uc.length = 1 then
    let country := uc.headD ""
    let changes := ui.filterMap (fun ind =>
      match sortRowsByDate (rows.filter (fun r => r.country == country && r.indicator == ind)) with
      | f :: s :: t =>
          let l := (f :: s :: t).getLastD f
          some { indicator := ind, first_value := f.value, last_value := l.value,
                 change_pct :=
                   if f.value ≠ 0 then PyFloat.fin ((l.value - f.value) / f.value * 100)
                   else if 0 < l.value then PyFloat.inf else PyFloat.ninf }
      | _ => none)
    Comparison.crossIndicator country
      (insSortOrd (fun a b : ChangeEntry => a.change_pct.geb b.change_pct) changes)
  else Comparison.empty

/-- The `{"plot_html": ..., "plot_json": ..., "vis_type": ...}` dict built by
`DataAnalyzer._generate_visualization`.  The plotly figure's traces and
layout are a deterministic function of the rows and the query and are not
modelled further; what matters to the claims is that `fig.to_html` embeds a
fresh `uuid.uuid4()` div id in `plot_html` on every call — `plot_div_id`
carries that nondeterministic draw, passed in explicitly like the clock
readings. -/
structure Visualization where
  plot_div_id : String
  vis_type : String
deriving DecidableEq, Repr

/-- `query_params.get("visualization_type", "line")` and the fresh div id:
the visualization record of one `_generate_visualization` call. -/
def generate_visualization (qp : QueryParams) (plotDivId : String) : Visualization :=
  { plot_div_id := plotDivId, vis_type := qp.visualization_type }

/-- The non-error payload of `DataAnalyzer.analyze_data`. -/
structure AnalysisOk where
  statistics : List StatRecord
  visualization : Visualization
  trend_analysis : List TrendRecord
  comparison : Comparison

/-- Result of `DataAnalyzer.analyze_data`: an error dict for missing data, or
the analysis dict. -/
inductive AnalysisResult where
  | err (msg : String)
  | ok (a : AnalysisOk)

/-- `DataAnalyzer.analyze_data`: error records for empty input or an empty
frame; trends only when `is_trend`; `_compare_entities` only when
`is_comparison` and the frame has more than one distinct country.
`plotDivId` is the fresh uuid4 div id `fig.to_html` draws inside
`_generate_visualization`. -/
noncomputable def analyze_data (data : List SeriesData) (qp : QueryParams)
    (plotDivId : String) : AnalysisResult :=
  if data.isEmpty then .err "没有数据可供分析"
  else
    let rows := toRows data
    if rows.isEmpty then .err "数据转换失败"
    else
      .ok { statistics := calc_statistics rows
            visualization := generate_visualization qp plotDivId
            trend_analysis := if qp.is_trend then analyze_trends rows else []
            comparison :=
              if qp.is_comparison ∧ 1 < (dedupKeep (rows.map (·.country))).length
              then compare_entities rows else Comparison.empty }

/-- `analysis_result.get("statistics", {})` (an error dict has no such key). -/
def statsOf : AnalysisResult → List StatRecord
  | .err _ => []
  | .ok a => a.statistics

/-- `analysis_result.get("trend_analysis", {})`. -/
def trendsOf : AnalysisResult → List TrendRecord
  | .err _ => []
  | .ok a => a.trend_analysis

/-- `analysis_result.get("comparison", {})`. -/
def comparisonOf : AnalysisResult → Comparison
  | .err _ => Comparison.empty
  | .ok a => a.comparison

/-- `analysis_result.get("visualization", {})`; `none` is the `{}` default of
an error dict. -/
def visualizationOf : AnalysisResult → Option Visualization
  | .err _ => none
  | .ok a => some a.visualization

/-! ## Report synthesizer (backend/app/services/analytics/reqort_generator.py) -/

/-- Python's `f"{q:.2f}"` on an exact rational: two decimal places.  Ties of
the float half-even rounding do not occur at any claim input. -/
def fmtQ2 (q : ℚ) : String :=
  let scaled : ℤ := round (q * 100)
  let n := scaled.natAbs
  (if scaled < 0 then "-" else "") ++ toString (n / 100) ++ "." ++
    (if n % 100 < 10 then "0" else "") ++ toString (n % 100)

/-- `f"{x:.2f}"` on a possibly-infinite float: Python renders infinities as
`inf` / `-inf` regardless of the precision spec. -/
def fmtPF2 : PyFloat → String
  | .fin q => fmtQ2 q
  | .inf => "inf"
  | .ninf => "-inf"

def pad2 (n : ℕ) : String := if n < 10 then "0" ++ toString n else toString n

def pad4 (n : ℕ) : String :=
  if n < 10 then "000" ++ toString n
  else if n < 100 then "00" ++ toString n
  else if n < 1000 then "0" ++ toString n
  else toString n

/-- `strftime("%Y-%m-%d")`. -/
def fmtDate (d : Date) : String := pad4 d.year ++ "-" ++ pad2 d.month ++ "-" ++ pad2 d.day

/-- `f" {unit}" if unit else ""`. -/
def unitStr (u : String) : String := if u = "" then "" else " " ++ u

/-- `ReportGenerator._generate_title`. -/
def generate_title (query : QueryParams) : String :=
  let country_str := if query.countries.isEmpty then "全球"
                     else String.intercalate "、" query.countries
  let indicator_str := if query.indicators.isEmpty then "宏观经济指标"
                       else String.intercalate "、" query.indicators
  let time_str :=
    match query.start_date, query.end_date with
    | some s, some e => toString s.year ++ "-" ++ toString e.year ++ "年"
    | some s, none => toString s.year ++ "年至今"
    | none, some e => "截至" ++ toString e.year ++ "年"
    | none, none => ""
  country_str ++ " " ++ indicator_str ++ " " ++ time_str ++ "分析报告"

/-- `ReportGenerator._generate_summary`.  The latest-value clause reads
`analysis_result["data"]`, a key the analyzer's output never carries, so it
never contributes; the mean clause always fires for a group (the mean of a
nonempty group is a number). -/
def generate_summary (analysis : AnalysisResult) (query : QueryParams) : String :=
  let stats := statsOf analysis
  let intro :=
    "本报告分析了"
    ++ (if query.countries.isEmpty then ""
        else String.intercalate ", " query.countries ++ "的")
    ++ (if query.indicators.isEmpty then ""
        else
          let indicator_names := dedupKeep (stats.map (·.indicator))
          if indicator_names.isEmpty then "经济指标数据"
          else String.intercalate ", " indicator_names)
    ++ (match query.start_date, query.end_date with
        | some s, some e => "在" ++ toString s.year ++ "年至" ++ toString e.year ++ "年期间的表现。"
        | some s, none => "从" ++ toString s.year ++ "年至今的表现。"
        | none, some e => "截至" ++ toString e.year ++ "年的表现。"
        | none, none => "的历史表现。")
  let stats_clauses := stats.map (fun v =>
    v.country ++ "的" ++ v.indicator ++ "平均值为" ++ fmtQ2 v.mean ++ unitStr v.unit)
  let part2 := if stats_clauses.isEmpty then []
               else ["主要统计数据显示，" ++ String.intercalate "；" stats_clauses ++ "。"]
  let trend_clauses := (trendsOf analysis).foldr (fun v acc =>
    (if v.overall_trend ≠ "" then
       [v.country ++ "的" ++ v.indicator ++ "总体呈" ++ v.overall_trend ++ "趋势"] else [])
    ++ (if v.recent_trend ≠ "" ∧ v.recent_trend ≠ "数据不足" then
         [v.country ++ "的" ++ v.indicator ++ "近期呈" ++ v.recent_trend ++ "趋势"] else [])
    ++ acc) []
  let part3 := if trend_clauses.isEmpty then []
               else ["趋势分析表明，" ++ String.intercalate "；" trend_clauses ++ "。"]
  let part4 :=
    match comparisonOf analysis with
    | .empty => []
    | .crossCountry ind rankings =>
        match rankings with
        | [] => []
        | top :: rest =>
            ["在" ++ ind ++ "方面，" ++ top.country ++ "表现最好"
              ++ (if 1 < (top :: rest).length then
                    "，而" ++ ((top :: rest).getLastD top).country ++ "表现相对较弱"
                  else "")
              ++ "。"]
    | .crossIndicator country changes =>
        match changes with
        | [] => []
        | c :: _ =>
            [(if c.change_pct.posb then
                "对于" ++ country ++ "而言，" ++ c.indicator ++ "增长最快，增幅达"
                  ++ fmtPF2 c.change_pct ++ "%"
              else
                "对于" ++ country ++ "而言，" ++ c.indicator ++ "下降最显著，降幅达"
                  ++ fmtPF2 c.change_pct.absPF ++ "%") ++ "。"]
  String.intercalate " " ([intro] ++ part2 ++ part3 ++ part4)

/-- The leader-vs-runner-up gap of `_extract_key_findings` lines 263-268:
`((top - second) / second) * 100` when the runner-up value is nonzero,
otherwise `float("inf")`. -/
def crossCountryGapPF (topValue secondValue : ℚ) : PyFloat :=
  if secondValue ≠ 0 then .fin ((topValue - secondValue) / secondValue * 100)
  else .inf

/-- `ReportGenerator._extract_key_findings`: per-group min/max range and
significant (>10%) recent change; inflection dates, strong (R² > 0.7)
trends and overall/recent divergence; leader-vs-runner-up gap for
cross-country and best-vs-worst for cross-indicator comparisons. -/
def extract_key_findings (analysis : AnalysisResult) : List String :=
  let stat_findings := (statsOf analysis).foldr (fun v acc =>
    [v.country ++ "的" ++ v.indicator ++ "在分析期间最高达到" ++ fmtQ2 v.maxv
       ++ unitStr v.unit ++ "，最低为" ++ fmtQ2 v.minv ++ unitStr v.unit]
    ++ (match v.recent_change_pct with
        | some rc =>
            if 10 < |rc| then
              [v.country ++ "的" ++ v.indicator ++ "最近"
                ++ (if 0 < rc then "增长" else "下降") ++ "了" ++ fmtQ2 |rc| ++ "%"]
            else []
        | none => [])
    ++ acc) []
  let trend_findings := (trendsOf analysis).foldr (fun v acc =>
    (if v.inflection_points.isEmpty then []
     else [v.country ++ "的" ++ v.indicator ++ "在"
             ++ String.intercalate ", " (v.inflection_points.map fmtDate) ++ "出现趋势拐点"])
    ++ (if (7 / 10 : ℚ) < v.trend_strength ∧ v.overall_trend ≠ "" then
          [v.country ++ "的" ++ v.indicator ++ "呈现强烈的" ++ v.overall_trend
            ++ "趋势，相关性达" ++ fmtQ2 v.trend_strength]
        else [])
    ++ (if v.recent_trend ≠ "" ∧ v.recent_trend ≠ "数据不足" ∧ v.recent_trend ≠ v.overall_trend then
          [v.country ++ "的" ++ v.indicator ++ "总体趋势为" ++ v.overall_trend
            ++ "，但近期趋势转为" ++ v.recent_trend]
        else [])
    ++ acc) []
  let comp_findings :=
    match comparisonOf analysis with
    | .empty => []
    | .crossCountry ind rankings =>
        match rankings with
        | a :: b :: _ =>
            ["在" ++ ind ++ "方面，" ++ a.country ++ "领先" ++ b.country ++ " "
              ++ fmtPF2 (crossCountryGapPF a.value b.value).absPF ++ "%"]
        | _ => []
    | .crossIndicator country changes =>
        match changes with
        | best :: s :: t =>
            ["对于" ++ country ++ "，" ++ best.indicator ++ "表现最佳，而"
              ++ ((best :: s :: t).getLastD best).indicator ++ "表现相对较弱"]
        | _ => []
  stat_findings ++ trend_findings ++ comp_findings

/-- One row of the consolidated statistics table. -/
structure StatTableRow where
  country : String
  indicator : String
  mean : ℚ
  median : ℚ
  minv : ℚ
  maxv : ℚ
deriving DecidableEq, Repr

/-- A data table of the report. -/
structure DataTable where
  title : String
  headers : List String
  rows : List StatTableRow
deriving DecidableEq, Repr

/-- `ReportGenerator._prepare_data_tables`: the per-series tables read
`analysis_result["data"]`, a key the analyzer's output never carries, so only
the consolidated statistics table (when any statistics exist) can appear. -/
def prepare_data_tables (analysis : AnalysisResult) : List DataTable :=
  let stats := statsOf analysis
  if stats.isEmpty then []
  else [{ title := "统计数据摘要",
          headers := ["国家", "指标", "平均值", "中位数", "最小值", "最大值"],
          rows := stats.map (fun v =>
            { country := v.country, indicator := v.indicator, mean := v.mean,
              median := v.median, minv := v.minv, maxv := v.maxv }) }]

/-- The report dict. -/
structure Report where
  title : String
  summary : String
  key_findings : List String
  data_tables : List DataTable
  charts : Option Visualization
  timestamp : String
  query_details : QueryParams
deriving DecidableEq, Repr

/-- `ReportGenerator.generate_report`.  `datetime.now().isoformat()` is the
one clock read; it enters as the explicit `nowIso` argument.  `charts`
echoes `analysis_result.get("visualization", {})`, which carries the fresh
uuid4 div id drawn inside the analyzer. -/
def generate_report (analysis : AnalysisResult) (query : QueryParams) (nowIso : String) : Report :=
  { title := generate_title query
    summary := generate_summary analysis query
    key_findings := extract_key_findings analysis
    data_tables := prepare_data_tables analysis
    charts := visualizationOf analysis
    timestamp := nowIso
    query_details := query }

/-- The spec's worked example query. -/
def exampleQueryText : PyStr := "比较中国和美国2010-2020年的GDP趋势".toList

/-- Two countries, one indicator, single points 100 and 0: the runner-up's
latest value is zero. -/
def zeroRunnerUpData : List SeriesData :=
  [{ country := "甲", country_code := "AAA", indicator := "IND", indicator_code := "I",
     unit := "", data := [⟨⟨2020, 1, 1⟩, 100⟩] },
   { country := "乙", country_code := "BBB", indicator := "IND", indicator_code := "I",
     unit := "", data := [⟨⟨2020, 1, 1⟩, 0⟩] }]

/-- One country, two indicators, two points each. -/
def oneCountryTwoIndicators : List SeriesData :=
  [{ country := "中国", country_code := "CHN", indicator := "GDP", indicator_code := "G",
     unit := "", data := [⟨⟨2019, 1, 1⟩, 1⟩, ⟨⟨2020, 1, 1⟩, 2⟩] },
   { country := "中国", country_code := "CHN", indicator := "CPI", indicator_code := "C",
     unit := "", data := [⟨⟨2019, 1, 1⟩, 3⟩, ⟨⟨2020, 1, 1⟩, 4⟩] }]

/-- A comparison-flagged query (used with the two data sets above). -/
def comparisonQuery : QueryParams :=
  { countries := ["AAA", "BBB"], indicators := ["I"], start_date := none, end_date := none,
    is_comparison := true, is_trend := false, visualization_type := "line",
    original_query := [] }

/-- The spec's cross-country ranking example: latest values CHN 100, USA 90,
JPN 80 on a single indicator. -/
def rankingExampleRows : List Row :=
  [{ country := "CHN", country_code := "CHN", indicator := "GDP", indicator_code := "G",
     unit := "", date := ⟨2020, 1, 1⟩, value := 100 },
   { country := "USA", country_code := "USA", indicator := "GDP", indicator_code := "G",
     unit := "", date := ⟨2020, 1, 1⟩, value := 90 },
   { country := "JPN", country_code := "JPN", indicator := "GDP", indicator_code := "G",
     unit := "", date := ⟨2020, 1, 1⟩, value := 80 }]

/-- A GDP group with two dated points (CAGR present). -/
def gdpTwoPointRows : List Row :=
  [{ dummyRow with indicator := "GDP", date := ⟨2019, 1, 1⟩, value := 1 },
   { dummyRow with indicator := "GDP", date := ⟨2020, 1, 1⟩, value := 2 }]

/-- A constant three-point group. -/
def constantThreeRows : List Row :=
  [{ dummyRow with date := ⟨2018, 1, 1⟩, value := 5 },
   { dummyRow with date := ⟨2019, 1, 1⟩, value := 5 },
   { dummyRow with date := ⟨2020, 1, 1⟩, value := 5 }]

/-- Default entry for head accesses on rankings known to be nonempty. -/
def dummyRank : RankEntry := { country := "", value := 0, date := ⟨1, 1, 1⟩, rank := 0,
                               difference_from_top := 0 }

/-- A two-point group whose second-to-last value is 0 (zero denominator for
the recent percent change). -/
def prevZeroRows : List Row :=
  [{ dummyRow with date := ⟨2019, 1, 1⟩, value := 0 },
   { dummyRow with date := ⟨2020, 1, 1⟩, value := 7 }]

/-! ## Supporting lemmas -/

section ClaimVerification

attribute [local semireducible] Rat.mul Rat.add Rat.sub Rat.inv Rat.ofScientific

theorem mem_insertOrd {α : Type} (le : α → α → Bool) (x y : α) (l : List α) :
    y ∈ insertOrd le x l ↔ y = x ∨ y ∈ l := by
  induction l with
  | nil => simp [insertOrd]
  | cons h t ih =>
    simp only [insertOrd]
    split
    · simp
    · simp only [List.mem_cons, ih]
      tauto

theorem mem_insSortOrd {α : Type} (le : α → α → Bool) (y : α) (l : List α) :
    y ∈ insSortOrd le l ↔ y ∈ l := by
  induction l with
  | nil => simp [insSortOrd]
  | cons h t ih => simp [insSortOrd, mem_insertOrd, ih]

theorem length_insertOrd {α : Type} (le : α → α → Bool) (x : α) (l : List α) :
    (insertOrd le x l).length = l.length + 1 := by
  induction l with
  | nil => simp [insertOrd]
  | cons h t ih =>
    simp only [insertOrd]
    split <;> simp [ih]

theorem length_insSortOrd {α : Type} (le : α → α → Bool) (l : List α) :
    (insSortOrd le l).length = l.length := by
  induction l with
  | nil => rfl
  | cons h t ih => simp [insSortOrd, length_insertOrd, ih]

theorem pairwise_insertOrd {α : Type} (le : α → α → Bool)
    (htrans : ∀ a b c, le a b = true → le b c = true → le a c = true)
    (htot : ∀ a b, le a b = true ∨ le b a = true)
    (x : α) (l : List α) (hl : l.Pairwise (fun a b => le a b = true)) :
    (insertOrd le x l).Pairwise (fun a b => le a b = true) := by
  induction l with
  | nil => simp [insertOrd]
  | cons h t ih =>
    rcases List.pairwise_cons.mp hl with ⟨hh, ht⟩
    simp only [insertOrd]
    split
    · rename_i hxh
      refine List.pairwise_cons.mpr ⟨?_, hl⟩
      intro y hy
      rcases List.mem_cons.mp hy with rfl | hy
      · exact hxh
      · exact htrans _ _ _ hxh (hh y hy)
    · rename_i hxh
      have hhx : le h x = true := by
        rcases htot x h with hc | hc
        · exact absurd hc hxh
        · exact hc
      refine List.pairwise_cons.mpr ⟨?_, ih ht⟩
      intro y hy
      rcases (mem_insertOrd le x y t).mp hy with rfl | hy
      · exact hhx
      · exact hh y hy

theorem pairwise_insSortOrd {α : Type} (le : α → α → Bool)
    (htrans : ∀ a b c, le a b = true → le b c = true → le a c = true)
    (htot : ∀ a b, le a b = true ∨ le b a = true)
    (l : List α) : (insSortOrd le l).Pairwise (fun a b => le a b = true) := by
  induction l with
  | nil => simp [insSortOrd]
  | cons h t ih => exact pairwise_insertOrd le htrans htot h _ ih

theorem getLastD_mem' {α : Type} (l : List α) (d : α) (h : l ≠ []) :
    l.getLastD d ∈ l := by
  induction l with
  | nil => exact absurd rfl h
  | cons a t ih =>
    cases t with
    | nil => simp
    | cons b t' =>
      rw [List.getLastD_cons]
      exact List.mem_cons_of_mem a (ih (by simp))

theorem contains_single (c : Char) (l : PyStr) (h : c ∈ l) :
    containsSub [c] l = true := by
  induction l with
  | nil => simp at h
  | cons a t ih =>
    rcases List.mem_cons.mp h with rfl | h
    · simp [containsSub, startsWithStr]
    · simp [containsSub, ih h]

theorem goYears_val (l : PyStr) :
    ∀ (s : ℕ) (prev : Bool) (y : ℕ), y ∈ goYears s prev l → y = 19 ∨ y = 20 := by
  induction l with
  | nil => intro s prev y h; simp [goYears] at h
  | cons c t ih =>
    intro s prev y h
    cases s with
    | zero =>
        rw [goYears] at h
        split at h
        · rcases List.mem_cons.mp h with rfl | h
          · unfold yearDigitVal
            split
            · exact Or.inl rfl
            · exact Or.inr rfl
          · exact ih _ _ _ h
        · exact ih _ _ _ h
    | succ s => exact ih _ _ _ (by rw [goYears] at h; exact h)

theorem findYears_val (q : PyStr) (y : ℕ) (h : y ∈ findYears q) : y = 19 ∨ y = 20 :=
  goYears_val q 0 false y h

theorem foldl_scan_sound (m : List (String × String)) (q : PyStr) :
    ∀ (acc : List String) (code : String),
      code ∈ m.foldl
        (fun acc p =>
          if containsSub (lowerStr p.1.toList) (lowerStr q) && !(acc.contains p.2)
          then acc ++ [p.2] else acc) acc →
      code ∈ acc ∨ ∃ p, p ∈ m ∧ p.2 = code ∧
        containsSub (lowerStr p.1.toList) (lowerStr q) = true := by
  induction m with
  | nil => intro acc code h; exact Or.inl h
  | cons p m ih =>
    intro acc code h
    simp only [List.foldl_cons] at h
    rcases ih _ code h with hacc | ⟨p', hp', hcode, hcond⟩
    · cases hc : (containsSub (lowerStr p.1.toList) (lowerStr q) && !(acc.contains p.2)) with
      | true =>
          rw [if_pos hc] at hacc
          rcases List.mem_append.mp hacc with hacc | hone
          · exact Or.inl hacc
          · refine Or.inr ⟨p, List.mem_cons_self p m, ?_, ?_⟩
            · exact (List.mem_singleton.mp hone).symm
            · exact ((Bool.and_eq_true _ _).mp hc).1
      | false =>
          rw [if_neg (fun hcc => Bool.false_ne_true (hc ▸ hcc))] at hacc
          exact Or.inl hacc
    · exact Or.inr ⟨p', List.mem_cons_of_mem p hp', hcode, hcond⟩

theorem dateLeb_iff (a b : Date) :
    dateLeb a b = true ↔ (a.year < b.year ∨ (a.year = b.year ∧
      (a.month < b.month ∨ (a.month = b.month ∧ a.day ≤ b.day)))) := by
  simp [dateLeb]

theorem natBle_trans : ∀ a b c : ℕ, Nat.ble a b = true → Nat.ble b c = true →
    Nat.ble a c = true := by
  intro a b c hab hbc
  rw [Nat.ble_eq] at *
  omega

theorem natBle_total : ∀ a b : ℕ, Nat.ble a b = true ∨ Nat.ble b a = true := by
  intro a b
  rcases Nat.le_total a b with h | h
  · exact Or.inl (Nat.ble_eq.mpr h)
  · exact Or.inr (Nat.ble_eq.mpr h)

theorem sortedNat_headD_le_getLastD (l : List ℕ) (h : l ≠ []) :
    (insSortOrd (fun a b => Nat.ble a b) l).headD 0 ≤
      (insSortOrd (fun a b => Nat.ble a b) l).getLastD 0 := by
  have hp := pairwise_insSortOrd (fun a b => Nat.ble a b) natBle_trans natBle_total l
  cases hs : insSortOrd (fun a b => Nat.ble a b) l with
  | nil =>
      have hlen := length_insSortOrd (fun a b => Nat.ble a b) l
      rw [hs] at hlen
      exact absurd (List.length_eq_zero.mp hlen.symm) h
  | cons a t =>
      rw [hs] at hp
      rcases List.pairwise_cons.mp hp with ⟨ha, _⟩
      cases t with
      | nil => simp
      | cons b t' =>
          have hmem : (b :: t').getLastD a ∈ b :: t' := getLastD_mem' _ _ (by simp)
          have hble := ha _ hmem
          rw [List.getLastD_cons] at hble
          simp only [List.headD_cons, List.getLastD_cons]
          exact Nat.le_of_ble_eq_true hble

theorem extract_time_period_le (text : PyStr) (cy : ℕ) (hcy : 1900 ≤ cy) :
    dateLeb (extract_time_period text cy).1 (extract_time_period text cy).2 = true := by
  cases hfy : findYears text with
  | nil =>
      simp only [extract_time_period, hfy]
      split
      · rw [dateLeb_iff]; simp; omega
      · split
        · rw [dateLeb_iff]; simp; omega
        · split
          · rw [dateLeb_iff]; simp
          · rw [dateLeb_iff]; simp; omega
  | cons y ys =>
      cases ys with
      | nil =>
          have hy : y = 19 ∨ y = 20 := findYears_val text y (by rw [hfy]; simp)
          simp only [extract_time_period, hfy]
          split
          · rw [dateLeb_iff]; simp; omega
          · rw [dateLeb_iff]; simp
      | cons y2 ys2 =>
          simp only [extract_time_period, hfy]
          have hle := sortedNat_headD_le_getLastD (y :: y2 :: ys2) (by simp)
          rw [dateLeb_iff]
          simp only []
          omega

/-- C5: for every input string (and sane clock year), `parse_query` returns a
structured query with a non-empty countries list, a non-empty indicators
list, and `start_date ≤ end_date`.  The embedding is total, matching the
source: no operation in the `try` body can raise (the NER fallback swallows
its own errors), so the `except` fallback is unreachable and `parse_query`
never raises to the caller. -/
theorem C5_parse_query_contract (text : PyStr) (cy : ℕ) (hcy : 1900 ≤ cy) :
    (parse_query text cy).countries ≠ [] ∧
    (parse_query text cy).indicators ≠ [] ∧
    ∃ s e, (parse_query text cy).start_date = some s ∧
      (parse_query text cy).end_date = some e ∧ dateLeb s e = true := by
  refine ⟨?_, ?_, ?_⟩
  · simp only [parse_query]
    split
    · simp
    · rename_i hne
      simpa [List.isEmpty_iff] using hne
  · simp only [parse_query]
    split
    · simp
    · rename_i hne
      simpa [List.isEmpty_iff] using hne
  · exact ⟨(extract_time_period text cy).1, (extract_time_period text cy).2,
      by simp [parse_query], by simp [parse_query], extract_time_period_le text cy hcy⟩

/-- C5 witness: the contract instantiated at the spec's unrecognizable input
and the year 2026. -/
theorem C5_parse_query_contract_witness :
    1900 ≤ 2026 ∧
    ((parse_query ("asdkj".toList) 2026).countries ≠ [] ∧
     (parse_query ("asdkj".toList) 2026).indicators ≠ [] ∧
     ∃ s e, (parse_query ("asdkj".toList) 2026).start_date = some s ∧
       (parse_query ("asdkj".toList) 2026).end_date = some e ∧ dateLeb s e = true) :=
  ⟨by omega, C5_parse_query_contract ("asdkj".toList) 2026 (by omega)⟩

/-- C6 counterexample: the input "Australia" does not yield only AUS — the
USA synonym "us" occurs inside "australia", so the scan returns
[USA, AUS]. -/
theorem C6_australia_counterexample :
    extract_countries ("Australia".toList) = ["USA", "AUS"] ∧
    extract_countries ("Australia".toList) ≠ ["AUS"] := by
  constructor
  · decide
  · decide

/-- C6 amended: soundness holds — every code returned by the lexical country
scan has one of that country's own catalog synonyms contained
(case-insensitively) in the text — but the curated synonyms are not
collision-free: "us" (a USA synonym) occurs inside the mention "Australia",
so a text naming exactly one catalog country can yield a second code. -/
theorem C6_country_scan_sound (text : PyStr) (code : String)
    (h : code ∈ extract_countries text) :
    ∃ p, p ∈ country_map ∧ p.2 = code ∧
      containsSub (lowerStr p.1.toList) (lowerStr text) = true := by
  rcases foldl_scan_sound country_map text [] code h with hin | hex
  · simp at hin
  · exact hex

/-- C6 witness: soundness applied to the USA code extracted from
"Australia". -/
theorem C6_country_scan_sound_witness :
    ("USA" ∈ extract_countries ("Australia".toList)) ∧
    ∃ p, p ∈ country_map ∧ p.2 = "USA" ∧
      containsSub (lowerStr p.1.toList) (lowerStr ("Australia".toList)) = true :=
  ⟨by decide, C6_country_scan_sound ("Australia".toList) ("USA") (by decide)⟩

/-- C10: intent-flag detection is bare substring containment, so any text
containing one of the single-character terms 和/与/及/比 is flagged as a
comparison; in particular the non-comparative text 中华人民共和国2020年GDP
(which contains 和 inside the country name) parses with
`is_comparison = true`. -/
theorem C10_single_char_comparison :
    (∀ text : PyStr, ('和' ∈ text ∨ '与' ∈ text ∨ '及' ∈ text ∨ '比' ∈ text) →
      detect_comparison text = true) ∧
    (parse_query ("中华人民共和国2020年GDP".toList) 2026).is_comparison = true := by
  constructor
  · intro text h
    have hterm : ∀ c : Char, c ∈ text → Char.toLower c = c →
        containsSub [c] (lowerStr text) = true := by
      intro c hc hlc
      exact contains_single c _ (List.mem_map.mpr ⟨c, hc, hlc⟩)
    rcases h with h | h | h | h
    · exact List.any_eq_true.mpr ⟨"和", by decide, hterm '和' h (by decide)⟩
    · exact List.any_eq_true.mpr ⟨"与", by decide, hterm '与' h (by decide)⟩
    · exact List.any_eq_true.mpr ⟨"及", by decide, hterm '及' h (by decide)⟩
    · exact List.any_eq_true.mpr ⟨"比", by decide, hterm '比' h (by decide)⟩
  · decide

/-- C10 witness: the implication applied at the concrete non-comparative
input containing 和 inside 中华人民共和国. -/
theorem C10_single_char_comparison_witness :
    ('和' ∈ ("中华人民共和国2020年GDP".toList) ∨ '与' ∈ ("中华人民共和国2020年GDP".toList) ∨
      '及' ∈ ("中华人民共和国2020年GDP".toList) ∨ '比' ∈ ("中华人民共和国2020年GDP".toList)) ∧
    detect_comparison ("中华人民共和国2020年GDP".toList) = true :=
  ⟨Or.inl (by decide),
   C10_single_char_comparison.1 ("中华人民共和国2020年GDP".toList) (Or.inl (by decide))⟩

/-- C1 (code bug): on the spec's example text the year scan finds NO tokens —
`\b` cannot match between a CJK word character and a digit, and `re.findall`
with the group `(19|20)` would anyway return `19`/`20`, not the year — so
`parse_query` returns the default ten-year window [current_year−10,
current_year] instead of the specified [2010-01-01, 2020-12-31]; countries,
indicator and both intent flags do match the spec's example. -/
theorem C1_example_window_bug (cy : ℕ) (hcy : 2021 ≤ cy) :
    findYears exampleQueryText = [] ∧
    (parse_query exampleQueryText cy).countries = ["CHN", "USA"] ∧
    (parse_query exampleQueryText cy).indicators = ["NY.GDP.MKTP.CD"] ∧
    (parse_query exampleQueryText cy).is_comparison = true ∧
    (parse_query exampleQueryText cy).is_trend = true ∧
    (parse_query exampleQueryText cy).start_date = some ⟨cy - 10, 1, 1⟩ ∧
    (parse_query exampleQueryText cy).end_date = some ⟨cy, 12, 31⟩ ∧
    (parse_query exampleQueryText cy).start_date ≠ some ⟨2010, 1, 1⟩ := by
  have hfy : findYears exampleQueryText = [] := by decide
  have hse : extract_time_period exampleQueryText cy = (⟨cy - 10, 1, 1⟩, ⟨cy, 12, 31⟩) := by
    simp only [extract_time_period, hfy]
    rw [if_neg (by decide), if_neg (by decide), if_neg (by decide)]
  refine ⟨hfy, ?_, ?_, ?_, ?_, ?_, ?_, ?_⟩
  · simp only [parse_query]; decide
  · simp only [parse_query]; decide
  · simp only [parse_query]; decide
  · simp only [parse_query]; decide
  · simp only [parse_query, hse]
  · simp only [parse_query, hse]
  · simp only [parse_query, hse]
    intro h
    simp only [Option.some.injEq, Date.mk.injEq] at h
    omega

/-- C1 witness: at clock year 2026 the parsed window starts at 2016-01-01,
not at the specified 2010-01-01. -/
theorem C1_example_window_bug_witness :
    2021 ≤ 2026 ∧
    (parse_query exampleQueryText 2026).start_date ≠ some ⟨2010, 1, 1⟩ :=
  ⟨by omega, (C1_example_window_bug 2026 (by omega)).2.2.2.2.2.2.2⟩

theorem comparisonOf_analyze (data : List SeriesData) (qp : QueryParams) (divId : String) :
    comparisonOf (analyze_data data qp divId) =
      (if data.isEmpty then Comparison.empty
       else if (toRows data).isEmpty then Comparison.empty
       else if qp.is_comparison = true ∧
            1 < (dedupKeep ((toRows data).map (·.country))).length
            then compare_entities (toRows data) else Comparison.empty) := by
  simp only [analyze_data]
  split
  · rfl
  · split
    · rfl
    · rfl

theorem compare_entities_crossCountry_iff (rows : List Row) :
    (∃ ind rk, compare_entities rows = Comparison.crossCountry ind rk) ↔
      (1 < (dedupKeep (rows.map (·.country))).length ∧
        (dedupKeep (rows.map (·.indicator))).length = 1) := by
  unfold compare_entities
  dsimp only
  split
  · rename_i hc
    exact ⟨fun _ => hc, fun _ => ⟨_, _, rfl⟩⟩
  · rename_i hc
    split
    · constructor
      · rintro ⟨ind, rk, h⟩
        exact absurd h (by simp)
      · intro h
        exact absurd h hc
    · constructor
      · rintro ⟨ind, rk, h⟩
        exact absurd h (by simp)
      · intro h
        exact absurd h hc

theorem compare_entities_not_crossIndicator (rows : List Row)
    (huc : 1 < (dedupKeep (rows.map (·.country))).length) :
    ∀ c chs, compare_entities rows ≠ Comparison.crossIndicator c chs := by
  intro c chs
  unfold compare_entities
  dsimp only
  split
  · simp
  · split
    · rename_i h2
      exact absurd h2.2 (by omega)
    · simp

/-- C3 counterexample: a comparison-flagged run over one country with two
indicators yields an EMPTY comparison record — the `analyze_data` gate
requires more than one distinct country before `_compare_entities` is even
called, so the claimed cross-indicator comparison is never produced. -/
theorem C3_cross_indicator_counterexample :
    comparisonOf (analyze_data oneCountryTwoIndicators comparisonQuery ("div-1")) = Comparison.empty ∧
    comparisonQuery.is_comparison = true ∧
    (dedupKeep ((toRows oneCountryTwoIndicators).map (·.country))).length = 1 ∧
    (dedupKeep ((toRows oneCountryTwoIndicators).map (·.indicator))).length = 2 := by
  refine ⟨by decide, by decide, by decide, by decide⟩

/-- C3 amended: a cross-country comparison is produced exactly when
`is_comparison` is set and the retrieved data has >1 distinct country with
exactly 1 distinct indicator; a cross-indicator comparison is NEVER produced
(the gate `len(set(df["country"])) > 1` contradicts the branch's own
single-country requirement); every other shape, and every run with
`is_comparison` false, yields the empty comparison record. -/
theorem C3_comparison_shape (data : List SeriesData) (qp : QueryParams) (divId : String) :
    ((∃ ind rk, comparisonOf (analyze_data data qp divId) = Comparison.crossCountry ind rk) ↔
      (qp.is_comparison = true ∧ toRows data ≠ [] ∧
        1 < (dedupKeep ((toRows data).map (·.country))).length ∧
        (dedupKeep ((toRows data).map (·.indicator))).length = 1)) ∧
    (∀ c chs, comparisonOf (analyze_data data qp divId) ≠ Comparison.crossIndicator c chs) ∧
    (qp.is_comparison = false → comparisonOf (analyze_data data qp divId) = Comparison.empty) := by
  refine ⟨?_, ?_, ?_⟩
  · rw [comparisonOf_analyze]
    by_cases hd : data.isEmpty
    · rw [if_pos hd]
      have hrows : toRows data = [] := by
        rw [List.isEmpty_iff.mp hd]
        rfl
      simp [hrows]
    · rw [if_neg hd]
      by_cases hr : (toRows data).isEmpty
      · rw [if_pos hr]
        simp [List.isEmpty_iff.mp hr]
      · rw [if_neg hr]
        have hrows : toRows data ≠ [] := by
          simpa [List.isEmpty_iff] using hr
        by_cases hg : qp.is_comparison = true ∧
            1 < (dedupKeep ((toRows data).map (·.country))).length
        · rw [if_pos hg, compare_entities_crossCountry_iff]
          constructor
          · rintro ⟨huc, hui⟩
            exact ⟨hg.1, hrows, huc, hui⟩
          · rintro ⟨_, _, huc, hui⟩
            exact ⟨huc, hui⟩
        · rw [if_neg hg]
          constructor
          · rintro ⟨ind, rk, h⟩
            exact absurd h (by simp)
          · rintro ⟨hcomp, _, huc, _⟩
            exact absurd ⟨hcomp, huc⟩ hg
  · intro c chs
    rw [comparisonOf_analyze]
    by_cases hd : data.isEmpty
    · rw [if_pos hd]
      simp
    · rw [if_neg hd]
      by_cases hr : (toRows data).isEmpty
      · rw [if_pos hr]
        simp
      · rw [if_neg hr]
        by_cases hg : qp.is_comparison = true ∧
            1 < (dedupKeep ((toRows data).map (·.country))).length
        · rw [if_pos hg]
          exact compare_entities_not_crossIndicator _ hg.2 c chs
        · rw [if_neg hg]
          simp
  · intro hfalse
    rw [comparisonOf_analyze]
    by_cases hd : data.isEmpty
    · rw [if_pos hd]
    · rw [if_neg hd]
      by_cases hr : (toRows data).isEmpty
      · rw [if_pos hr]
      · rw [if_neg hr]
        rw [if_neg ?_]
        rintro ⟨h1, _⟩
        rw [hfalse] at h1
        exact Bool.false_ne_true h1

/-- C3 witness: the shape characterization applied concretely — a run with
`is_comparison` false yields the empty comparison record. -/
theorem C3_comparison_shape_witness :
    ({ comparisonQuery with is_comparison := false } : QueryParams).is_comparison = false ∧
    comparisonOf (analyze_data oneCountryTwoIndicators
        { comparisonQuery with is_comparison := false } ("div-1")) = Comparison.empty :=
  ⟨by decide,
   (C3_comparison_shape oneCountryTwoIndicators
      { comparisonQuery with is_comparison := false } ("div-1")).2.2 (by decide)⟩

theorem yearsBetween_self (d : Date) : yearsBetween d d = 0 := by
  unfold yearsBetween daysBetween
  simp

theorem yearsBetween_degenerate (rows : List Row) (hlen : ¬ 1 < rows.length) :
    yearsBetween (firstRowD rows).date (lastRowD rows).date = 0 := by
  cases rows with
  | nil => simp [firstRowD, lastRowD, sortRowsByDate, insSortOrd, yearsBetween_self]
  | cons r t =>
    cases t with
    | nil =>
        simp [firstRowD, lastRowD, sortRowsByDate, insSortOrd, insertOrd, yearsBetween_self]
    | cons r2 t2 =>
        exact absurd (by simp) hlen

theorem calc_stats_cagr_isSome_iff (c i : String) (rows : List Row) :
    ((calc_stats_group c i rows).cagr.isSome = true) ↔
      (hasGdpMarker i = true ∧
        0 < yearsBetween (firstRowD rows).date (lastRowD rows).date ∧
        0 < (firstRowD rows).value) := by
  unfold calc_stats_group
  dsimp only
  split_ifs <;> first
    | (exact iff_of_true (by simp) (by assumption))
    | (exact iff_of_false (by simp) (by assumption))
    | (refine iff_of_false (by simp) ?_
       rintro ⟨-, hy, -⟩
       rw [yearsBetween_degenerate rows (by assumption)] at hy
       exact lt_irrefl 0 hy)

theorem calc_stats_cagr_eq (c i : String) (rows : List Row)
    (hG : hasGdpMarker i = true)
    (hy : 0 < yearsBetween (firstRowD rows).date (lastRowD rows).date)
    (hv : 0 < (firstRowD rows).value) :
    (calc_stats_group c i rows).cagr =
      some (cagrVal (firstRowD rows).value (lastRowD rows).value
        (yearsBetween (firstRowD rows).date (lastRowD rows).date)) := by
  unfold calc_stats_group
  dsimp only
  have hlen : 1 < rows.length := by
    by_contra hlen
    rw [yearsBetween_degenerate rows hlen] at hy
    exact lt_irrefl 0 hy
  split_ifs <;> first
    | rfl
    | (rename_i hcond
       exact absurd ⟨hG, hy, hv⟩ hcond)

theorem calc_stats_recent_none (c i : String) (rows : List Row)
    (h : (prevRowD rows).value = 0) :
    (calc_stats_group c i rows).recent_change_pct = none := by
  unfold calc_stats_group
  dsimp only
  split_ifs <;> rfl

theorem calc_stats_recent_eq (c i : String) (rows : List Row)
    (hlen : 1 < rows.length) (hp : (prevRowD rows).value ≠ 0) :
    (calc_stats_group c i rows).recent_change_pct =
      some (((lastRowD rows).value - (prevRowD rows).value) / (prevRowD rows).value * 100) := by
  unfold calc_stats_group
  dsimp only
  split_ifs <;> rfl

theorem withRanksFrom_diff_zero (i : ℕ) (l : List LatestEntry) :
    ∀ e ∈ withRanksFrom 0 i l, e.difference_from_top = 0 := by
  induction l generalizing i with
  | nil => intro e he; simp [withRanksFrom] at he
  | cons x t ih =>
    intro e he
    rw [withRanksFrom] at he
    rcases List.mem_cons.mp he with rfl | he
    · simp
    · exact ih (i + 1) e he

theorem crossCountryGapPF_inf_iff (a b : ℚ) :
    crossCountryGapPF a b = PyFloat.inf ↔ b = 0 := by
  unfold crossCountryGapPF
  split
  · rename_i hb
    simp [hb]
  · rename_i hb
    simp only [not_not] at hb
    simp [hb]

theorem crossIndicator_change_pct (rows : List Row) (c : String) (chs : List ChangeEntry)
    (h : compare_entities rows = Comparison.crossIndicator c chs) :
    ∀ e ∈ chs, ((e.change_pct = PyFloat.inf ∨ e.change_pct = PyFloat.ninf) ↔
      e.first_value = 0) := by
  unfold compare_entities at h
  dsimp only at h
  split at h
  · exact absurd h (by simp)
  · split at h
    · simp only [Comparison.crossIndicator.injEq] at h
      obtain ⟨-, rfl⟩ := h
      intro e he
      have he' := (mem_insSortOrd _ e _).mp he
      rcases List.mem_filterMap.mp he' with ⟨ind, hind, hmk⟩
      split at hmk
      · simp only [Option.some.injEq] at hmk
        subst hmk
        dsimp only
        split
        · rename_i hf
          simp [hf]
        · rename_i hf
          simp only [not_not] at hf
          split
          · simp [hf]
          · simp [hf]
      · exact absurd hmk (by simp)
    · exact absurd h (by simp)

theorem sumQ_const (v : ℚ) : ∀ (l : List ℚ), (∀ x ∈ l, x = v) →
    sumQ l = l.length * v := by
  intro l
  induction l with
  | nil => intro _; simp [sumQ]
  | cons x t ih =>
    intro h
    have hx := h x (by simp)
    have ht : ∀ y ∈ t, y = v := fun y hy => h y (List.mem_cons_of_mem x hy)
    have hstep : sumQ (x :: t) = x + sumQ t := rfl
    rw [hstep, hx, ih ht, List.length_cons]
    push_cast
    ring

theorem sumQ_eq_zero : ∀ (l : List ℚ), (∀ x ∈ l, x = 0) → sumQ l = 0 := by
  intro l h
  rw [sumQ_const 0 l h]
  ring

theorem meanQ_const (v : ℚ) (l : List ℚ) (hne : l ≠ []) (h : ∀ x ∈ l, x = v) :
    meanQ l = v := by
  unfold meanQ
  rw [sumQ_const v l h]
  have hl : (l.length : ℚ) ≠ 0 := by
    have := List.length_pos.mpr hne
    positivity
  field_simp

theorem olsSums_const (v : ℚ) : ∀ (l : List ℚ), (∀ x ∈ l, x = v) → ∀ i : ℕ,
    (olsSums i l).2.1 = l.length * v ∧ (olsSums i l).2.2.1 = v * (olsSums i l).1 := by
  intro l
  induction l with
  | nil => intro _ i; simp [olsSums]
  | cons x t ih =>
    intro h i
    have hx := h x (by simp)
    have ht : ∀ y ∈ t, y = v := fun y hy => h y (List.mem_cons_of_mem x hy)
    obtain ⟨h1, h2⟩ := ih ht (i + 1)
    constructor
    · simp only [olsSums, h1, hx, List.length_cons]
      push_cast
      ring
    · simp only [olsSums, h1, h2, hx]
      ring

theorem slopeOf_const (v : ℚ) (l : List ℚ) (h : ∀ x ∈ l, x = v) : slopeOf l = 0 := by
  unfold slopeOf
  dsimp only
  obtain ⟨hsy, hsxy⟩ := olsSums_const v l h 0
  rw [hsxy, hsy]
  rw [show (l.length : ℚ) * (v * (olsSums 0 l).1) - (olsSums 0 l).1 * ((l.length : ℚ) * v) = 0
        from by ring]
  exact zero_div _

theorem ssTotOf_const (v : ℚ) (l : List ℚ) (hne : l ≠ []) (h : ∀ x ∈ l, x = v) :
    ssTotOf l = 0 := by
  unfold ssTotOf
  refine sumQ_eq_zero _ ?_
  intro z hz
  rcases List.mem_map.mp hz with ⟨x, hx, rfl⟩
  rw [h x hx, meanQ_const v l hne h]
  ring

theorem rsqOf_const (v : ℚ) (l : List ℚ) (hne : l ≠ []) (h : ∀ x ∈ l, x = v) :
    rsqOf l = 0 := by
  unfold rsqOf
  dsimp only
  rw [if_neg (by simp [ssTotOf_const v l hne h])]

theorem diffsOf_const (v : ℚ) : ∀ (l : List ℚ), (∀ x ∈ l, x = v) →
    ∀ d ∈ diffsOf l, d = 0 := by
  intro l
  induction l with
  | nil => intro _ d hd; simp [diffsOf] at hd
  | cons a t ih =>
    intro h d hd
    cases t with
    | nil => simp [diffsOf] at hd
    | cons b t2 =>
        rw [diffsOf] at hd
        rcases List.mem_cons.mp hd with rfl | hd
        · rw [h b (by simp), h a (by simp)]
          ring
        · exact ih (fun x hx => h x (List.mem_cons_of_mem a hx)) d hd

theorem signChangeIdxs_const : ∀ (l : List Bool), (∀ b ∈ l, b = false) →
    ∀ i, signChangeIdxs i l = [] := by
  intro l
  induction l with
  | nil => intro _ i; rfl
  | cons a t ih =>
    intro h i
    cases t with
    | nil => rfl
    | cons b t2 =>
        rw [signChangeIdxs]
        rw [if_neg (by rw [h a (by simp), h b (by simp)]; simp)]
        rw [List.nil_append]
        exact ih (fun x hx => h x (List.mem_cons_of_mem a hx)) (i + 1)

theorem mem_sortRowsByDate (r : Row) (rows : List Row) :
    r ∈ sortRowsByDate rows ↔ r ∈ rows :=
  mem_insSortOrd _ r rows

theorem length_sortRowsByDate (rows : List Row) :
    (sortRowsByDate rows).length = rows.length :=
  length_insSortOrd _ rows

/-- C9: a group of at least three points all holding the same constant value
is analyzed without error, with slope 0, flat direction, R² defined as the
guard's sentinel 0, and no inflection points (the recent sub-trend is flat
when ≥6 points, else the insufficient-data marker). -/
theorem C9_constant_series_trend (c i : String) (rows : List Row) (v : ℚ)
    (h3 : 3 ≤ rows.length) (hconst : ∀ r ∈ rows, r.value = v) :
    analyze_trend_group c i rows =
      some { country := c, indicator := i, overall_trend := "稳定",
             trend_strength := 0,
             recent_trend := if 6 ≤ rows.length then "稳定" else "数据不足",
             slope := 0, inflection_points := [] } := by
  unfold analyze_trend_group
  dsimp only
  have hslen := length_sortRowsByDate rows
  rw [hslen]
  rw [if_pos h3]
  have hy : ∀ x ∈ (sortRowsByDate rows).map (·.value), x = v := by
    intro x hx
    rcases List.mem_map.mp hx with ⟨r, hr, rfl⟩
    exact hconst r ((mem_sortRowsByDate r rows).mp hr)
  have hyne : (sortRowsByDate rows).map (·.value) ≠ [] := by
    have hml : ((sortRowsByDate rows).map (·.value)).length = rows.length := by
      rw [List.length_map, hslen]
    intro he
    rw [he] at hml
    simp only [List.length_nil] at hml
    omega
  have hslope := slopeOf_const v _ hy
  have hrsq := rsqOf_const v _ hyne hy
  rw [hslope, hrsq]
  rw [if_neg (lt_irrefl 0), if_neg (lt_irrefl 0)]
  have hdiff : ∀ b ∈ (diffsOf ((sortRowsByDate rows).map (·.value))).map
      (fun d => decide (d < 0)), b = false := by
    intro b hb
    rcases List.mem_map.mp hb with ⟨d, hd, rfl⟩
    rw [diffsOf_const v _ hy d hd]
    simp
  rw [signChangeIdxs_const _ hdiff 0]
  rw [List.map_nil]
  by_cases h6 : 6 ≤ rows.length
  · rw [if_pos h6, if_pos h6]
    have hry : ∀ x ∈ ((sortRowsByDate rows).drop (rows.length - 6)).map (·.value), x = v := by
      intro x hx
      rcases List.mem_map.mp hx with ⟨r, hr, rfl⟩
      exact hconst r ((mem_sortRowsByDate r rows).mp (List.drop_subset _ _ hr))
    rw [slopeOf_const v _ hry]
    rw [if_neg (lt_irrefl 0), if_neg (lt_irrefl 0)]
  · rw [if_neg h6, if_neg h6]

/-- C9 witness: the constant-series trend record at a concrete three-point
group of value 5. -/
theorem C9_constant_series_trend_witness :
    (3 ≤ constantThreeRows.length ∧ ∀ r ∈ constantThreeRows, r.value = 5) ∧
    analyze_trend_group ("X") ("Y") constantThreeRows =
      some { country := "X", indicator := "Y", overall_trend := "稳定",
             trend_strength := 0,
             recent_trend := if 6 ≤ constantThreeRows.length then "稳定" else "数据不足",
             slope := 0, inflection_points := [] } :=
  ⟨⟨by decide, by decide⟩,
   C9_constant_series_trend ("X") ("Y") constantThreeRows 5 (by decide) (by decide)⟩

/-- C8: the CAGR field is present iff the indicator's display name contains
the GDP marker, the 365.25-day-year span between the first and last
date-sorted points is positive, and the first value is positive; when
present it is `((last/first)^(1/years) - 1) * 100`. -/
theorem C8_cagr_presence (c i : String) (rows : List Row) :
    (((calc_stats_group c i rows).cagr.isSome = true) ↔
      (hasGdpMarker i = true ∧
        0 < yearsBetween (firstRowD rows).date (lastRowD rows).date ∧
        0 < (firstRowD rows).value)) ∧
    (hasGdpMarker i = true →
      0 < yearsBetween (firstRowD rows).date (lastRowD rows).date →
      0 < (firstRowD rows).value →
      (calc_stats_group c i rows).cagr =
        some (cagrVal (firstRowD rows).value (lastRowD rows).value
          (yearsBetween (firstRowD rows).date (lastRowD rows).date))) :=
  ⟨calc_stats_cagr_isSome_iff c i rows, calc_stats_cagr_eq c i rows⟩

/-- C8 witness: CAGR present on a two-point GDP group, absent when the same
group carries a non-GDP indicator name. -/
theorem C8_cagr_presence_witness :
    (hasGdpMarker ("GDP") = true ∧
      0 < yearsBetween (firstRowD gdpTwoPointRows).date (lastRowD gdpTwoPointRows).date ∧
      0 < (firstRowD gdpTwoPointRows).value) ∧
    (calc_stats_group ("X") ("GDP") gdpTwoPointRows).cagr.isSome = true ∧
    (calc_stats_group ("X") ("CPI") gdpTwoPointRows).cagr.isSome = false :=
  ⟨⟨by decide, by decide, by decide⟩,
   (C8_cagr_presence ("X") ("GDP") gdpTwoPointRows).1.mpr ⟨by decide, by decide, by decide⟩,
   by
     cases hb : (calc_stats_group ("X") ("CPI") gdpTwoPointRows).cagr.isSome with
     | false => rfl
     | true =>
         have hc := (C8_cagr_presence ("X") ("CPI") gdpTwoPointRows).1.mp hb
         exact absurd hc.1 (by decide)⟩

/-- C4 counterexample: with a runner-up latest value of 0, the generated
report's key findings contain the string "在IND方面，甲领先乙 inf%" — a
sentence formatted from `float("inf")` — so infinities do reach prose. -/
theorem C4_inf_reaches_findings :
    (generate_report (analyze_data zeroRunnerUpData comparisonQuery ("div-1")) comparisonQuery
        ("2026-10-12T00:00:00")).key_findings =
      ["乙的IND在分析期间最高达到0.00，最低为0.00",
       "甲的IND在分析期间最高达到100.00，最低为100.00",
       "在IND方面，甲领先乙 inf%"] ∧
    ((generate_report (analyze_data zeroRunnerUpData comparisonQuery ("div-1")) comparisonQuery
        ("2026-10-12T00:00:00")).key_findings.any
      (fun s => containsSub ("inf".toList) s.toList)) = true := by
  refine ⟨by decide, by decide⟩

/-- C4 amended: the analyzer's own zero-denominator guards hold (recent
percent change omitted when the previous value is 0; CAGR only under
positive span and first value; R² sentinel 0 on zero total sum of squares;
cross-country difference-from-top sentinel 0 when the top value is 0), and
the two remaining degenerate sites are exactly characterized: the
key-findings leader-vs-runner-up gap is `float("inf")` iff the runner-up
value is 0, and the cross-indicator percent change is ±∞ iff the first value
is 0. -/
theorem C4_zero_denominator_guards :
    (∀ (c i : String) (rows : List Row), (prevRowD rows).value = 0 →
      (calc_stats_group c i rows).recent_change_pct = none) ∧
    (∀ (c i : String) (rows : List Row),
      (calc_stats_group c i rows).cagr.isSome = true →
      0 < yearsBetween (firstRowD rows).date (lastRowD rows).date ∧
      0 < (firstRowD rows).value) ∧
    (∀ y : List ℚ, ssTotOf y = 0 → rsqOf y = 0) ∧
    (∀ (i : ℕ) (l : List LatestEntry), ∀ e ∈ withRanksFrom 0 i l,
      e.difference_from_top = 0) ∧
    (∀ a b : ℚ, crossCountryGapPF a b = PyFloat.inf ↔ b = 0) ∧
    (∀ (rows : List Row) (c : String) (chs : List ChangeEntry),
      compare_entities rows = Comparison.crossIndicator c chs →
      ∀ e ∈ chs, ((e.change_pct = PyFloat.inf ∨ e.change_pct = PyFloat.ninf) ↔
        e.first_value = 0)) := by
  refine ⟨calc_stats_recent_none, ?_, ?_, withRanksFrom_diff_zero,
    crossCountryGapPF_inf_iff, crossIndicator_change_pct⟩
  · intro c i rows h
    exact ((calc_stats_cagr_isSome_iff c i rows).mp h).2
  · intro y h
    unfold rsqOf
    dsimp only
    rw [if_neg (by simp [h])]

/-- C4 witness: the recent-change guard applied at a concrete group whose
second-to-last value is 0. -/
theorem C4_zero_denominator_guards_witness :
    (prevRowD prevZeroRows).value = 0 ∧
    (calc_stats_group ("X") ("Y") prevZeroRows).recent_change_pct = none :=
  ⟨by decide, C4_zero_denominator_guards.1 ("X") ("Y") prevZeroRows (by decide)⟩

theorem withRanksFrom_length (top : ℚ) : ∀ (i : ℕ) (l : List LatestEntry),
    (withRanksFrom top i l).length = l.length := by
  intro i l
  induction l generalizing i with
  | nil => rfl
  | cons x t ih => simp [withRanksFrom, ih]

theorem withRanksFrom_map_value (top : ℚ) : ∀ (i : ℕ) (l : List LatestEntry),
    (withRanksFrom top i l).map (·.value) = l.map (·.value) := by
  intro i l
  induction l generalizing i with
  | nil => rfl
  | cons x t ih => simp [withRanksFrom, ih]

theorem withRanksFrom_map_rank (top : ℚ) : ∀ (i : ℕ) (l : List LatestEntry),
    (withRanksFrom top i l).map (·.rank) = List.range' (i + 1) l.length := by
  intro i l
  induction l generalizing i with
  | nil => simp [withRanksFrom]
  | cons x t ih =>
      rw [withRanksFrom, List.map_cons, List.length_cons, List.range'_succ, ih (i + 1)]

theorem withRanksFrom_diff (top : ℚ) : ∀ (i : ℕ) (l : List LatestEntry),
    ∀ e ∈ withRanksFrom top i l, e.difference_from_top =
      if top ≠ 0 then (e.value - top) / top * 100 else 0 := by
  intro i l
  induction l generalizing i with
  | nil => intro e he; simp [withRanksFrom] at he
  | cons x t ih =>
    intro e he
    rw [withRanksFrom] at he
    rcases List.mem_cons.mp he with rfl | he
    · rfl
    · exact ih (i + 1) e he

theorem latest_value_geb_trans : ∀ a b c : LatestEntry,
    decide (b.value ≤ a.value) = true → decide (c.value ≤ b.value) = true →
    decide (c.value ≤ a.value) = true := by
  intro a b c hab hbc
  rw [decide_eq_true_eq] at *
  exact le_trans hbc hab

theorem latest_value_geb_total : ∀ a b : LatestEntry,
    decide (b.value ≤ a.value) = true ∨ decide (a.value ≤ b.value) = true := by
  intro a b
  rcases le_total b.value a.value with h | h
  · exact Or.inl (decide_eq_true h)
  · exact Or.inr (decide_eq_true h)

/-- C7: cross-country comparison ranks countries by latest value in stable
descending order, assigns ranks 1..n in that order, and records each entry's
percent difference from the top entry (0 for every entry when the top value
is 0); the spec's worked example {CHN: 100, USA: 90, JPN: 80} produces
[CHN(1, 0%), USA(2, −10%), JPN(3, −20%)]. -/
theorem C7_cross_country_ranking :
    (∀ (rows : List Row),
      1 < (dedupKeep (rows.map (·.country))).length →
      (dedupKeep (rows.map (·.indicator))).length = 1 →
      ∃ rk, compare_entities rows =
          Comparison.crossCountry ((dedupKeep (rows.map (·.indicator))).headD "") rk ∧
        List.Pairwise (fun a b : ℚ => b ≤ a) (rk.map (·.value)) ∧
        rk.map (·.rank) = List.range' 1 rk.length ∧
        (∀ e ∈ rk, e.difference_from_top =
          if (rk.headD dummyRank).value ≠ 0 then
            (e.value - (rk.headD dummyRank).value) / (rk.headD dummyRank).value * 100
          else 0)) ∧
    compare_entities rankingExampleRows = Comparison.crossCountry ("GDP")
      [⟨"CHN", 100, ⟨2020, 1, 1⟩, 1, 0⟩, ⟨"USA", 90, ⟨2020, 1, 1⟩, 2, -10⟩,
       ⟨"JPN", 80, ⟨2020, 1, 1⟩, 3, -20⟩] := by
  constructor
  · intro rows h1 h2
    unfold compare_entities
    dsimp only
    rw [if_pos ⟨h1, h2⟩]
    set latest := (dedupKeep (rows.map (·.country))).filterMap (fun c =>
      latestOf (rows.filter (fun r => r.country == c &&
        r.indicator == (dedupKeep (rows.map (·.indicator))).headD ""))) with hlat
    have hpw := pairwise_insSortOrd (fun a b : LatestEntry => decide (b.value ≤ a.value))
      latest_value_geb_trans latest_value_geb_total latest
    cases hs : insSortOrd (fun a b : LatestEntry => decide (b.value ≤ a.value)) latest with
    | nil =>
        exact ⟨[], rfl, by simp, by simp [rankAndDiff], by simp [rankAndDiff]⟩
    | cons topE rest =>
        rw [hs] at hpw
        refine ⟨_, rfl, ?_, ?_, ?_⟩
        · unfold rankAndDiff
          rw [withRanksFrom_map_value, List.pairwise_map]
          exact hpw.imp (fun h => of_decide_eq_true h)
        · unfold rankAndDiff
          rw [withRanksFrom_map_rank, withRanksFrom_length]
        · unfold rankAndDiff
          intro e he
          have hd := withRanksFrom_diff topE.value 0 (topE :: rest) e he
          have hh : (((withRanksFrom topE.value 0 (topE :: rest)).headD dummyRank)).value =
              topE.value := by
            rw [withRanksFrom]
            simp
          rw [hd, hh]
  · decide

/-- C7 witness: the ranking characterization applied to the spec's worked
example rows. -/
theorem C7_cross_country_ranking_witness :
    (1 < (dedupKeep (rankingExampleRows.map (·.country))).length ∧
      (dedupKeep (rankingExampleRows.map (·.indicator))).length = 1) ∧
    ∃ rk, compare_entities rankingExampleRows =
        Comparison.crossCountry ((dedupKeep (rankingExampleRows.map (·.indicator))).headD "") rk ∧
      List.Pairwise (fun a b : ℚ => b ≤ a) (rk.map (·.value)) ∧
      rk.map (·.rank) = List.range' 1 rk.length ∧
      (∀ e ∈ rk, e.difference_from_top =
        if (rk.headD dummyRank).value ≠ 0 then
          (e.value - (rk.headD dummyRank).value) / (rk.headD dummyRank).value * 100
        else 0) :=
  ⟨⟨by decide, by decide⟩,
   C7_cross_country_ranking.1 rankingExampleRows (by decide) (by decide)⟩

end ClaimVerification
